import Mathlib

/-!
Verification development for the pet-image batch generator
(`generate.js` in its plain and documented variants, plus `pets.js`).

The JavaScript source is shallowly embedded:

* `Pet` mirrors the catalog record shape of `pets.js`;
* `temperamentToExpression` is the expression table of `pets.js`;
* `buildPrompt` is the prompt compiler of `generate.js`;
* `genResult` / `generateImage` model the body of `generateImage`
  (the network outcome is supplied by an environment value `GenOutcome`);
* `downloadImage` models the download-and-write step;
* `itemStep` / `runItems` / `mainRun` model the `main` loop, threading an
  explicit state (`St`) holding the filesystem, the counters, the cost
  accumulator, the semantic event trace and the console log;
* `program` models the top-level credential check before `main` runs.

Numbers that the script handles as JavaScript numbers (costs) are modelled
as rationals; JavaScript `undefined` is modelled with `Option`; a thrown
exception is modelled with `Except`.  The console log text is carried
verbatim where it is structural, with numeric formatting abstracted by
`toString` (the spec treats the logging format as incidental).
-/

/-- Catalog record shape from `pets.js`.  The `prompt` field is the visual
description used by the prompt compiler; `description` is the shelter-style
text used only in the plain variant's progress log line. -/
structure Pet where
  id : String
  name : String
  species : String
  subcategory : String
  specialNeeds : Option String
  temperament : String
  status : String
  prompt : String
  description : String
deriving Repr, DecidableEq

/-- Expression table exported by `pets.js`, as an association list in source
order. -/
def temperamentToExpression : List (String × String) :=
  [("calm", "peaceful"),
   ("playful", "happy"),
   ("affectionate", "friendly"),
   ("shy", "gentle"),
   ("energetic", "excited"),
   ("independent", "confident")]

/-- JavaScript property read `table[key]` on a plain object modelled as an
association list: `some` of the stored value when the key is present,
`none` (undefined) otherwise. -/
def jsLookup (table : List (String × String)) (key : String) : Option String :=
  (table.find? (fun kv => kv.1 == key)).map (fun kv => kv.2)

/-- JavaScript `v || dflt` for an optional string `v`: the default is taken
when `v` is undefined or falsy (the empty string). -/
def jsOrStr (v : Option String) (dflt : String) : String :=
  match v with
  | some s => if s = "" then dflt else s
  | none => dflt

/-- Prompt compiler `buildPrompt` of `generate.js` (identical in both
variants): template around the visual description and the resolved
expression word. -/
def buildPrompt (pet : Pet) : String :=
  let expression := jsOrStr (jsLookup temperamentToExpression pet.temperament) "friendly"
  "simple cartoon illustration of a " ++ pet.prompt ++ ", white background, "
    ++ expression ++ " expression, flat colors"

/-- Parsed JSON values, as far as the script inspects them: enough to model
the `errors` field of a response payload, its truthiness and its
serialization. -/
inductive Js where
  | null
  | jsbool (b : Bool)
  | num (q : ℚ)
  | str (s : String)
  | arr (elems : List Js)
deriving Repr

/-- JavaScript truthiness of a parsed JSON value (`NaN` does not arise:
parsed JSON never holds it). -/
def jsTruthy : Js → Bool
  | Js.null => false
  | Js.jsbool b => b
  | Js.num q => q != 0
  | Js.str s => s != ""
  | Js.arr _ => true

mutual

/-- Abbreviated `JSON.stringify` for the modelled JSON values. -/
def jsStringify : Js → String
  | Js.null => "null"
  | Js.jsbool b => cond b "true" "false"
  | Js.num q => toString q
  | Js.str s => "\"" ++ s ++ "\""
  | Js.arr l => "[" ++ String.intercalate "," (jsStringifyList l) ++ "]"

/-- Serialization of a list of JSON values, elementwise. -/
def jsStringifyList : List Js → List String
  | [] => []
  | x :: xs => jsStringify x :: jsStringifyList xs

end

/-- One entry of the `data` array of a generation response: the transient
image URL and the optional cost. -/
structure GenEntry where
  imageURL : String
  cost : Option ℚ
deriving Repr, DecidableEq

/-- Parsed body of a generation response whose HTTP exchange succeeded.
`none` fields model absent (undefined) fields. -/
structure GenPayload where
  errors : Option Js
  data : Option (List GenEntry)
deriving Repr

/-- Environment-supplied outcome of the generation POST request: either the
HTTP exchange fails with a status, or it yields a parsed payload. -/
inductive GenOutcome where
  | httpError (status : Nat) (statusText : String)
  | payload (p : GenPayload)
deriving Repr

/-- Environment-supplied outcome of the download GET request. -/
inductive DlOutcome where
  | httpError (status : Nat)
  | ok (bytes : List Nat)
deriving Repr, DecidableEq

/-- Environment for one non-skipped item: the random task UUID, the
generation outcome, the download outcome, and whether the local write
succeeds. -/
structure ItemEnv where
  uuid : String
  gen : GenOutcome
  dl : DlOutcome
  writeOk : Bool

/-- Thrown exceptions, tagged by their throw site; `errMessage` recovers the
message text the script builds. -/
inductive JsError where
  | genTransport (status : Nat) (statusText : String)
  | genService (errors : Js)
  | typeErrorUndefined (prop : String)
  | dlTransport (status : Nat)
  | storage (msg : String)
deriving Repr

/-- Message text of a thrown exception, exactly as the script builds it
(the `typeErrorUndefined` text stands for the engine-generated TypeError
raised by a property read on `undefined`). -/
def errMessage : JsError → String
  | JsError.genTransport status statusText =>
      "API error: " ++ toString status ++ " " ++ statusText
  | JsError.genService e => "API error: " ++ jsStringify e
  | JsError.typeErrorUndefined prop =>
      "TypeError: cannot read properties of undefined (reading " ++ prop ++ ")"
  | JsError.dlTransport status => "Download failed: " ++ toString status
  | JsError.storage msg => msg

/-- Result logic of `generateImage` after the POST request: the `ok` check,
the truthiness check on `result.errors`, then `result.data[0]`.  A missing
`data` field makes the indexing throw; an empty `data` array yields
`undefined` (`Option.none`). -/
def genResult : GenOutcome → Except JsError (Option GenEntry)
  | GenOutcome.httpError status statusText =>
      Except.error (JsError.genTransport status statusText)
  | GenOutcome.payload p =>
      match p.errors with
      | some e =>
          if jsTruthy e then Except.error (JsError.genService e)
          else
            match p.data with
            | none => Except.error (JsError.typeErrorUndefined "0")
            | some l => Except.ok l.head?
      | none =>
          match p.data with
          | none => Except.error (JsError.typeErrorUndefined "0")
          | some l => Except.ok l.head?

/-- Fixed request body assembled by `generateImage` for a given task UUID
and prompt. -/
structure GenRequest where
  taskType : String
  taskUUID : String
  model : String
  positivePrompt : String
  width : Nat
  height : Nat
  steps : Nat
  outputType : String
  outputFormat : String
  outputQuality : Nat
  numberResults : Nat
deriving Repr, DecidableEq

/-- Request constants of `generate.js`. -/
def mkGenRequest (taskUUID prompt : String) : GenRequest :=
  { taskType := "imageInference"
    taskUUID := taskUUID
    model := "runware:100@1"
    positivePrompt := prompt
    width := 512
    height := 512
    steps := 4
    outputType := "URL"
    outputFormat := "WEBP"
    outputQuality := 80
    numberResults := 1 }

/-- Semantic events of a run: network calls, writes, directory creation and
the inter-item pause.  Console output is tracked separately. -/
inductive Event where
  | genRequest (r : GenRequest)
  | dlRequest (url : String)
  | fileWrite (path : String) (bytes : List Nat)
  | mkdirEv (path : String)
  | pause (ms : Nat)
deriving Repr, DecidableEq

/-- Filesystem contents: bytes stored at each existing path. -/
def Fs : Type := String → Option (List Nat)

/-- Write (create or overwrite) a file. -/
def setFile (fs : Fs) (path : String) (bytes : List Nat) : Fs :=
  fun p => if p = path then some bytes else fs p

/-- Model of `existsSync` on a file path. -/
def existsFile (fs : Fs) (path : String) : Bool :=
  (fs path).isSome

/-- Network events emitted by `generateImage`: the one POST request,
carrying the assembled body. -/
def generateImageEvents (pet : Pet) (uuid : String) : List Event :=
  [Event.genRequest (mkGenRequest uuid (buildPrompt pet))]

/-- Model of `generateImage`: one POST request whose outcome is supplied by
the environment, then the result logic of `genResult`. -/
def generateImage (pet : Pet) (uuid : String) (out : GenOutcome) :
    List Event × Except JsError (Option GenEntry) :=
  (generateImageEvents pet uuid, genResult out)

/-- Model of `downloadImage`: one GET request; on success the body bytes
are written to the destination (the write itself may fail, modelled by
`writeOk`). -/
def downloadImage (url filename : String) (dl : DlOutcome) (writeOk : Bool)
    (fs : Fs) : List Event × Except JsError Fs :=
  match dl with
  | DlOutcome.httpError status =>
      ([Event.dlRequest url], Except.error (JsError.dlTransport status))
  | DlOutcome.ok bytes =>
      if writeOk then
        ([Event.dlRequest url, Event.fileWrite filename bytes],
         Except.ok (setFile fs filename bytes))
      else
        ([Event.dlRequest url], Except.error (JsError.storage "write failed"))

/-- JavaScript `result.cost || 0` for the optional cost. -/
def jsOrQ : Option ℚ → ℚ
  | some c => if c = 0 then 0 else c
  | none => 0

/-- Run state threaded through `main`: the filesystem, the set of existing
directories, the three accumulators of the loop, the semantic event trace
and the console log. -/
structure St where
  files : Fs
  dirs : List String
  totalCost : ℚ
  generated : Nat
  failed : Nat
  events : List Event
  logs : List String

/-- Destination path `./images/{id}.webp` computed by the loop body. -/
def filenameOf (pet : Pet) : String :=
  "./images/" ++ pet.id ++ ".webp"

/-- Per-item outcome of one loop iteration, as observed by the run:
skipped on an existing file; fully generated (cost added); failed after
the generation response already added its cost (download or write threw);
failed with no cost added (the generation step threw, or its `undefined`
result threw on first property access). -/
inductive ItemResult where
  | skipped
  | generatedOk (cost : ℚ)
  | failedAfterCost (cost : ℚ)
  | failedEarly
deriving Repr, DecidableEq

/-- One iteration of the `main` loop of `generate.js` for one pet.  The
`genLogLine` parameter is the text of the per-item progress line, the one
point where the two script variants differ. -/
def itemStep (genLogLine : Pet → String) (pet : Pet) (env : ItemEnv)
    (st : St) : St × ItemResult :=
  let filename := filenameOf pet
  if existsFile st.files filename then
    ({ st with
        generated := st.generated + 1,
        logs := st.logs ++ ["[SKIP] " ++ pet.id ++ " - already exists"] },
     ItemResult.skipped)
  else
    let genOut := generateImage pet env.uuid env.gen
    match genOut.2 with
    | Except.error e =>
        ({ st with
            failed := st.failed + 1,
            events := st.events ++ genOut.1,
            logs := st.logs ++ [genLogLine pet, "  x Failed: " ++ errMessage e] },
         ItemResult.failedEarly)
    | Except.ok none =>
        ({ st with
            failed := st.failed + 1,
            events := st.events ++ genOut.1,
            logs := st.logs ++ [genLogLine pet,
              "  x Failed: " ++ errMessage (JsError.typeErrorUndefined "cost")] },
         ItemResult.failedEarly)
    | Except.ok (some entry) =>
        let cost := jsOrQ entry.cost
        let dlOut := downloadImage entry.imageURL filename env.dl env.writeOk st.files
        match dlOut.2 with
        | Except.error e =>
            ({ st with
                totalCost := st.totalCost + cost,
                failed := st.failed + 1,
                events := st.events ++ (genOut.1 ++ dlOut.1),
                logs := st.logs ++ [genLogLine pet, "  x Failed: " ++ errMessage e] },
             ItemResult.failedAfterCost cost)
        | Except.ok fsNew =>
            ({ st with
                files := fsNew,
                totalCost := st.totalCost + cost,
                generated := st.generated + 1,
                events := st.events ++ (genOut.1 ++ dlOut.1 ++ [Event.pause 200]),
                logs := st.logs ++ [genLogLine pet,
                  "  v Saved " ++ filename ++ " (cost: $" ++ toString cost ++ ")"] },
             ItemResult.generatedOk cost)

/-- The `for (const pet of pets)` loop, with the absolute item index used
to address the per-item environment; collects the per-item outcomes in
catalog order. -/
def runItems (genLogLine : Pet → String) (env : Nat → ItemEnv) :
    List Pet → Nat → St → St × List ItemResult
  | [], _, st => (st, [])
  | p :: ps, i, st =>
      let step := itemStep genLogLine p (env i) st
      let rest := runItems genLogLine env ps (i + 1) step.1
      (rest.1, step.2 :: rest.2)

/-- Initial run state over a given filesystem. -/
def initialSt (fs : Fs) (dirs : List String) : St :=
  { files := fs
    dirs := dirs
    totalCost := 0
    generated := 0
    failed := 0
    events := []
    logs := [] }

/-- Model of `main`: start-up log, idempotent creation of `./images`, the
item loop, then the summary log. -/
def mainRun (genLogLine : Pet → String) (pets : List Pet)
    (env : Nat → ItemEnv) (fs : Fs) (dirs : List String) :
    St × List ItemResult :=
  let st0 := initialSt fs dirs
  let st1 := { st0 with
    logs := st0.logs ++ ["Starting generation of " ++ toString pets.length ++ " pet images..."] }
  let st2 :=
    if "./images" ∈ st1.dirs then st1
    else { st1 with
      dirs := st1.dirs ++ ["./images"],
      events := st1.events ++ [Event.mkdirEv "./images"] }
  let out := runItems genLogLine env pets 0 st2
  ({ out.1 with
      logs := out.1.logs ++ ["--- Summary ---",
        "Generated: " ++ toString out.1.generated,
        "Failed: " ++ toString out.1.failed,
        "Total cost: $" ++ toString out.1.totalCost] },
   out.2)

/-- Progress log line of the plain variant (`part_000`): uses the shelter
description. -/
def genLogPlain (pet : Pet) : String :=
  "[GEN] " ++ pet.id ++ " - " ++ pet.description ++ "..."

/-- Progress log line of the documented variant (`part_001`): uses the pet
name. -/
def genLogDocumented (pet : Pet) : String :=
  "[GEN] " ++ pet.id ++ " - " ++ pet.name ++ "..."

/-- The plain variant's `main`. -/
def mainGenerate (pets : List Pet) (env : Nat → ItemEnv) (fs : Fs)
    (dirs : List String) : St × List ItemResult :=
  mainRun genLogPlain pets env fs dirs

/-- The documented variant's `main`. -/
def mainGenerateDocumented (pets : List Pet) (env : Nat → ItemEnv) (fs : Fs)
    (dirs : List String) : St × List ItemResult :=
  mainRun genLogDocumented pets env fs dirs

/-- Result of the whole process: the exit code when the script exits early
(missing credential), otherwise the run output; the state reports what was
done (nothing at all on the early exit). -/
def program (apiKeyEnv : Option String) (pets : List Pet)
    (env : Nat → ItemEnv) (fs : Fs) (dirs : List String) :
    Option Nat × St × List ItemResult :=
  match apiKeyEnv with
  | none => (some 1, initialSt fs dirs, [])
  | some k =>
      if k = "" then (some 1, initialSt fs dirs, [])
      else (none, mainGenerate pets env fs dirs)

/-- Results that increment the `generated` counter (skips and full
successes); the others increment `failed`. -/
def countsGenerated : ItemResult → Bool
  | ItemResult.skipped => true
  | ItemResult.generatedOk _ => true
  | ItemResult.failedAfterCost _ => false
  | ItemResult.failedEarly => false

/-- Amount a per-item outcome adds to the running cost total. -/
def costContribution : ItemResult → ℚ
  | ItemResult.skipped => 0
  | ItemResult.generatedOk c => c
  | ItemResult.failedAfterCost c => c
  | ItemResult.failedEarly => 0

/-- Recognizer for the inter-item pause event. -/
def isPauseEvent : Event → Bool
  | Event.pause _ => true
  | _ => false

/-- Recognizer for a full per-item success (non-skipped, generated). -/
def isGeneratedOk : ItemResult → Bool
  | ItemResult.generatedOk _ => true
  | _ => false

/-- Recognizer for network events (either request kind). -/
def isNetworkEvent : Event → Bool
  | Event.genRequest _ => true
  | Event.dlRequest _ => true
  | _ => false

/-- Concrete catalog record used by witnesses: a mapped temperament. -/
def petX : Pet :=
  { id := "x1"
    name := "Whisker"
    species := "cat"
    subcategory := "adult"
    specialNeeds := none
    temperament := "playful"
    status := "available"
    prompt := "orange cat"
    description := "a classic tabby" }

/-- Concrete catalog record used by witnesses: an unmapped temperament. -/
def petY : Pet :=
  { id := "x2"
    name := "Sky"
    species := "bird"
    subcategory := "parakeet"
    specialNeeds := none
    temperament := "unknown"
    status := "available"
    prompt := "blue bird"
    description := "a chatty parakeet" }

/-- Concrete result entry with a small cost. -/
def entryX : GenEntry :=
  { imageURL := "https://img.example/x1.webp"
    cost := some (1 / 1000) }

/-- Concrete result entry with another small cost. -/
def entryY : GenEntry :=
  { imageURL := "https://img.example/x2.webp"
    cost := some (1 / 500) }

/-- Concrete result entry with cost 5, used by the cost counterexample. -/
def entryCost5 : GenEntry :=
  { imageURL := "https://img.example/x1.webp"
    cost := some 5 }

/-- Payload carrying exactly one entry. -/
def payloadX : GenPayload :=
  { errors := none
    data := some [entryX] }

/-- Payload carrying exactly one entry. -/
def payloadY : GenPayload :=
  { errors := none
    data := some [entryY] }

/-- Payload carrying one entry of cost 5. -/
def payloadCost5 : GenPayload :=
  { errors := none
    data := some [entryCost5] }

/-- Payload whose errors field is present but null (falsy). -/
def payloadNullErrors : GenPayload :=
  { errors := some Js.null
    data := some [entryX] }

/-- Payload with an empty data array. -/
def payloadEmptyData : GenPayload :=
  { errors := none
    data := some [] }

/-- Item environment in which everything succeeds, first flavour. -/
def envOkX : ItemEnv :=
  { uuid := "uuid-0"
    gen := GenOutcome.payload payloadX
    dl := DlOutcome.ok [1, 2, 3]
    writeOk := true }

/-- Item environment in which everything succeeds, second flavour. -/
def envOkY : ItemEnv :=
  { uuid := "uuid-1"
    gen := GenOutcome.payload payloadY
    dl := DlOutcome.ok [4, 5]
    writeOk := true }

/-- Item environment whose generation succeeds (cost 5) but whose download
request fails. -/
def envDlFail : ItemEnv :=
  { uuid := "uuid-0"
    gen := GenOutcome.payload payloadCost5
    dl := DlOutcome.httpError 500
    writeOk := true }

/-- Item environment whose generation POST fails at the HTTP level. -/
def envGenHttpFail : ItemEnv :=
  { uuid := "uuid-0"
    gen := GenOutcome.httpError 500 "Internal Server Error"
    dl := DlOutcome.ok [9]
    writeOk := true }

/-- Item environment whose generation response has an empty data array. -/
def envEmptyData : ItemEnv :=
  { uuid := "uuid-0"
    gen := GenOutcome.payload payloadEmptyData
    dl := DlOutcome.ok [7]
    writeOk := true }

/-- Empty filesystem. -/
def fsEmpty : Fs := fun _ => none

/-- Filesystem already holding both witness assets. -/
def fsBoth : Fs := fun p =>
  if p = "./images/x1.webp" then some [0]
  else if p = "./images/x2.webp" then some [0]
  else none

/-- Per-item environments: the first item fails at generation, the rest
succeed. -/
def envSeqFailFirst : Nat → ItemEnv := fun i =>
  if i = 0 then envGenHttpFail else envOkY

/-- Per-item environments: everything succeeds. -/
def envSeqAllOk : Nat → ItemEnv := fun i =>
  if i = 0 then envOkX else envOkY

/-- State of the run right before the item loop: counters zeroed, start
log line emitted, and the output directory ensured (with its creation
event when it was absent); `mainRun` is definitionally the loop started
from this state followed by the summary log. -/
def preLoopSt (pets : List Pet) (fs : Fs) (dirs : List String) : St :=
  let st0 := initialSt fs dirs
  let st1 := { st0 with
    logs := st0.logs ++ ["Starting generation of " ++ toString pets.length ++ " pet images..."] }
  if "./images" ∈ st1.dirs then st1
  else { st1 with
    dirs := st1.dirs ++ ["./images"],
    events := st1.events ++ [Event.mkdirEv "./images"] }

/-- Assertion that an item environment lets the whole per-item sequence
succeed: the generation call yields a result entry, the download request
succeeds and the local write succeeds. -/
def envSucceeds (e : ItemEnv) : Prop :=
  (∃ entry, genResult e.gen = Except.ok (some entry))
    ∧ (∃ bytes, e.dl = DlOutcome.ok bytes)
    ∧ e.writeOk = true

/-- Assertion that the generation call itself throws (HTTP failure, service
error, or missing data field). -/
def genFails (gOut : GenOutcome) : Prop :=
  ∃ err, genResult gOut = Except.error err

lemma itemStep_spec (g : Pet → String) (pet : Pet) (env : ItemEnv) (st : St) :
    ((itemStep g pet env st).1.generated
        = st.generated + cond (countsGenerated (itemStep g pet env st).2) 1 0)
    ∧ ((itemStep g pet env st).1.failed
        = st.failed + cond (countsGenerated (itemStep g pet env st).2) 0 1)
    ∧ ((itemStep g pet env st).1.totalCost
        = st.totalCost + costContribution (itemStep g pet env st).2)
    ∧ ((itemStep g pet env st).1.dirs = st.dirs)
    ∧ (∃ evs, (itemStep g pet env st).1.events = st.events ++ evs
        ∧ evs.countP isPauseEvent = cond (isGeneratedOk (itemStep g pet env st).2) 1 0
        ∧ ((itemStep g pet env st).2 = ItemResult.skipped → evs = []))
    ∧ (∀ path, path ≠ filenameOf pet
        → (itemStep g pet env st).1.files path = st.files path)
    ∧ (isGeneratedOk (itemStep g pet env st).2 = false
        → (itemStep g pet env st).1.files = st.files) := by
  obtain ⟨uuid, gen, dl, writeOk⟩ := env
  by_cases hex : existsFile st.files (filenameOf pet) = true
  · simp [itemStep, hex, countsGenerated, costContribution, isGeneratedOk]
  · rcases hgen : genResult gen with e | oe
    · simp [itemStep, hex, generateImage, hgen, countsGenerated, costContribution,
        isGeneratedOk, generateImageEvents, List.countP, List.countP.go, isPauseEvent]
    · rcases oe with _ | entry
      · simp [itemStep, hex, generateImage, hgen, countsGenerated, costContribution,
          isGeneratedOk, generateImageEvents, List.countP, List.countP.go, isPauseEvent]
      · rcases dl with status | bytes
        · simp [itemStep, hex, generateImage, hgen, downloadImage, countsGenerated,
            costContribution, isGeneratedOk, generateImageEvents,
            List.countP, List.countP.go, isPauseEvent]
        · rcases writeOk with _ | _
          · simp [itemStep, hex, generateImage, hgen, downloadImage, countsGenerated,
              costContribution, isGeneratedOk, generateImageEvents,
              List.countP, List.countP.go, isPauseEvent]
          · simp only [itemStep, hex, generateImage, hgen, downloadImage]
            refine ⟨by simp [countsGenerated], by simp [countsGenerated],
              by simp [costContribution], by simp, ?_, ?_, ?_⟩
            · refine ⟨_, by simp; rfl, ?_, by simp⟩
              simp [generateImageEvents, List.countP, List.countP.go,
                isPauseEvent, isGeneratedOk]
            · intro path hpath
              simp [setFile, hpath]
            · simp [isGeneratedOk]

lemma itemStep_skip (g : Pet → String) (pet : Pet) (env : ItemEnv) (st : St)
    (hex : existsFile st.files (filenameOf pet) = true) :
    itemStep g pet env st =
      ({ st with
          generated := st.generated + 1,
          logs := st.logs ++ ["[SKIP] " ++ pet.id ++ " - already exists"] },
       ItemResult.skipped) := by
  simp [itemStep, hex]

lemma itemStep_genError (g : Pet → String) (pet : Pet) (env : ItemEnv) (st : St)
    (hex : existsFile st.files (filenameOf pet) = false)
    (err : JsError) (hgen : genResult env.gen = Except.error err) :
    (itemStep g pet env st).2 = ItemResult.failedEarly
    ∧ (itemStep g pet env st).1.files = st.files
    ∧ (itemStep g pet env st).1.generated = st.generated
    ∧ (itemStep g pet env st).1.failed = st.failed + 1
    ∧ (itemStep g pet env st).1.totalCost = st.totalCost := by
  obtain ⟨uuid, gen, dl, writeOk⟩ := env
  simp only at hgen
  simp [itemStep, hex, generateImage, hgen]

lemma itemStep_genUndefined (g : Pet → String) (pet : Pet) (env : ItemEnv) (st : St)
    (hex : existsFile st.files (filenameOf pet) = false)
    (hgen : genResult env.gen = Except.ok none) :
    (itemStep g pet env st).2 = ItemResult.failedEarly
    ∧ (itemStep g pet env st).1.files = st.files
    ∧ (itemStep g pet env st).1.generated = st.generated
    ∧ (itemStep g pet env st).1.failed = st.failed + 1
    ∧ (itemStep g pet env st).1.totalCost = st.totalCost := by
  obtain ⟨uuid, gen, dl, writeOk⟩ := env
  simp only at hgen
  simp [itemStep, hex, generateImage, hgen]

lemma itemStep_counts_of_succeeds (g : Pet → String) (pet : Pet) (env : ItemEnv)
    (st : St) (h : envSucceeds env) :
    countsGenerated (itemStep g pet env st).2 = true := by
  by_cases hex : existsFile st.files (filenameOf pet) = true
  · simp [itemStep, hex, countsGenerated]
  · obtain ⟨⟨entry, hgen⟩, ⟨bytes, hdl⟩, hw⟩ := h
    obtain ⟨uuid, gen, dl, writeOk⟩ := env
    simp only at hgen hdl hw
    subst hdl hw
    simp [itemStep, hex, generateImage, hgen, downloadImage, countsGenerated]

lemma runItems_spec (g : Pet → String) (env : Nat → ItemEnv) (ps : List Pet) :
    ∀ (i : Nat) (st : St),
      ((runItems g env ps i st).2.length = ps.length)
      ∧ ((runItems g env ps i st).1.generated
          = st.generated + (runItems g env ps i st).2.countP countsGenerated)
      ∧ ((runItems g env ps i st).1.failed
          = st.failed + (runItems g env ps i st).2.countP (fun r => !countsGenerated r))
      ∧ ((runItems g env ps i st).1.totalCost
          = st.totalCost + ((runItems g env ps i st).2.map costContribution).sum)
      ∧ ((runItems g env ps i st).1.dirs = st.dirs)
      ∧ (∃ evs, (runItems g env ps i st).1.events = st.events ++ evs
          ∧ evs.countP isPauseEvent = (runItems g env ps i st).2.countP isGeneratedOk)
      ∧ (∀ path, (∀ p ∈ ps, path ≠ filenameOf p)
          → (runItems g env ps i st).1.files path = st.files path) := by
  induction ps with
  | nil => intro i st; simp [runItems]
  | cons p ps ih =>
      intro i st
      obtain ⟨hg, hf, hc, hd, ⟨evs1, he1, hp1, _⟩, hfile, _⟩ := itemStep_spec g p (env i) st
      obtain ⟨ihlen, ihg, ihf, ihc, ihd, ⟨evs2, ihe, ihp⟩, ihfile⟩ :=
        ih (i + 1) (itemStep g p (env i) st).1
      simp only [runItems]
      refine ⟨by simp [ihlen], ?_, ?_, ?_, ?_, ?_, ?_⟩
      · rw [ihg, hg, List.countP_cons]
        cases countsGenerated (itemStep g p (env i) st).2 <;> simp <;> omega
      · rw [ihf, hf, List.countP_cons]
        cases countsGenerated (itemStep g p (env i) st).2 <;> simp <;> omega
      · rw [ihc, hc, List.map_cons, List.sum_cons]
        ring
      · rw [ihd, hd]
      · refine ⟨evs1 ++ evs2, ?_, ?_⟩
        · rw [ihe, he1, List.append_assoc]
        · rw [List.countP_append, hp1, ihp, List.countP_cons]
          cases isGeneratedOk (itemStep g p (env i) st).2 <;> simp <;> omega
      · intro path hpath
        rw [ihfile path (fun q hq => hpath q (List.mem_cons_of_mem _ hq)),
          hfile path (hpath p (List.mem_cons_self p ps))]

lemma filenameOf_ne_of_id_ne {a b : Pet} (h : a.id ≠ b.id) :
    filenameOf a ≠ filenameOf b := by
  intro hfn
  apply h
  have hdata := congrArg String.data hfn
  simp only [filenameOf, String.data_append, List.append_assoc] at hdata
  have h2 := List.append_cancel_left hdata
  have h3 := List.append_cancel_right h2
  exact String.ext h3

lemma runItems_all_skip (g : Pet → String) (env : Nat → ItemEnv) (ps : List Pet) :
    ∀ (i : Nat) (st : St),
    (∀ p ∈ ps, existsFile st.files (filenameOf p) = true) →
    (runItems g env ps i st).1.files = st.files
    ∧ (runItems g env ps i st).1.events = st.events
    ∧ (runItems g env ps i st).1.generated = st.generated + ps.length
    ∧ (runItems g env ps i st).1.failed = st.failed
    ∧ (runItems g env ps i st).1.totalCost = st.totalCost
    ∧ (runItems g env ps i st).2 = List.replicate ps.length ItemResult.skipped := by
  induction ps with
  | nil => intro i st _; simp [runItems]
  | cons p ps ih =>
      intro i st hall
      have hex : existsFile st.files (filenameOf p) = true :=
        hall p (List.mem_cons_self p ps)
      rw [runItems]
      rw [itemStep_skip g p (env i) st hex]
      have htail := ih (i + 1)
        { st with
            generated := st.generated + 1,
            logs := st.logs ++ ["[SKIP] " ++ p.id ++ " - already exists"] }
        (fun q hq => hall q (List.mem_cons_of_mem _ hq))
      obtain ⟨t1, t2, t3, t4, t5, t6⟩ := htail
      refine ⟨t1, t2, ?_, t4, t5, ?_⟩
      · rw [t3]; simp; omega
      · simp [t6, List.replicate_succ]

lemma runItems_all_succeed (g : Pet → String) (env : Nat → ItemEnv) (ps : List Pet) :
    ∀ (i : Nat) (st : St),
    (∀ j, j < ps.length → envSucceeds (env (i + j))) →
    (runItems g env ps i st).1.generated = st.generated + ps.length
    ∧ (runItems g env ps i st).1.failed = st.failed
    ∧ (∀ path, st.files path = none → (∀ p ∈ ps, path ≠ filenameOf p)
        → (runItems g env ps i st).1.files path = none) := by
  induction ps with
  | nil => intro i st _; simp [runItems]
  | cons p ps ih =>
      intro i st hall
      have hsucc0 : envSucceeds (env i) := by
        have := hall 0 (by simp)
        simpa using this
      have hcounts := itemStep_counts_of_succeeds g p (env i) st hsucc0
      obtain ⟨hg, hf, _, _, _, hfile, _⟩ := itemStep_spec g p (env i) st
      have htail := ih (i + 1) (itemStep g p (env i) st).1
        (fun j hj => by
          have := hall (j + 1) (by simp; omega)
          have harith : i + (j + 1) = i + 1 + j := by omega
          rwa [harith] at this)
      obtain ⟨t1, t2, t3⟩ := htail
      rw [runItems]
      refine ⟨?_, ?_, ?_⟩
      · simp only []
        rw [t1, hg, hcounts]
        simp; omega
      · simp only []
        rw [t2, hf, hcounts]
        simp
      · intro path hpath hne
        simp only []
        refine t3 path ?_ (fun q hq => hne q (List.mem_cons_of_mem _ hq))
        rw [hfile path (hne p (List.mem_cons_self p ps))]
        exact hpath

lemma nodup_head_id_ne {p q : Pet} {ps : List Pet}
    (hnodup : ((p :: ps).map Pet.id).Nodup) (hq : q ∈ ps) : p.id ≠ q.id := by
  rw [List.map_cons, List.nodup_cons] at hnodup
  intro hid
  exact hnodup.1 (hid ▸ List.mem_map_of_mem Pet.id hq)

lemma runItems_one_failure (g : Pet → String) (env : Nat → ItemEnv) (ps : List Pet) :
    ∀ (k i : Nat) (hk : k < ps.length) (st : St),
    (ps.map Pet.id).Nodup →
    st.files (filenameOf (ps.get ⟨k, hk⟩)) = none →
    genFails (env (i + k)).gen →
    (∀ j, j < ps.length → j ≠ k → envSucceeds (env (i + j))) →
    (runItems g env ps i st).1.generated = st.generated + (ps.length - 1)
    ∧ (runItems g env ps i st).1.failed = st.failed + 1
    ∧ (runItems g env ps i st).1.files (filenameOf (ps.get ⟨k, hk⟩)) = none := by
  induction ps with
  | nil => intro k i hk; exact absurd hk (by simp)
  | cons p ps ih =>
      intro k i hk st hnodup hfile hfail hsucc
      rcases k with _ | k'
      · have hfile0 : st.files (filenameOf p) = none := hfile
        have hex : existsFile st.files (filenameOf p) = false := by
          simp [existsFile, hfile0]
        obtain ⟨err, herr⟩ := hfail
        have herr0 : genResult (env i).gen = Except.error err := by
          simpa using herr
        obtain ⟨_, hfiles, hgen, hfailed, _⟩ :=
          itemStep_genError g p (env i) st hex err herr0
        have htail := runItems_all_succeed g env ps (i + 1) (itemStep g p (env i) st).1
          (fun j hj => by
            have hx := hsucc (j + 1) (by simp; omega) (by omega)
            have harith : i + (j + 1) = i + 1 + j := by omega
            rwa [harith] at hx)
        obtain ⟨t1, t2, t3⟩ := htail
        rw [runItems]
        refine ⟨?_, ?_, ?_⟩
        · simp only []
          rw [t1, hgen]
          simp
        · simp only []
          rw [t2, hfailed]
        · simp only []
          apply t3
          · rw [hfiles]; exact hfile0
          · intro q hq
            exact filenameOf_ne_of_id_ne (nodup_head_id_ne hnodup hq)
      · have hk' : k' < ps.length := by
          simpa using Nat.lt_of_succ_lt_succ hk
        have hgetk : (p :: ps).get ⟨k' + 1, hk⟩ = ps.get ⟨k', hk'⟩ := rfl
        rw [hgetk] at hfile ⊢
        have hsucc0 : envSucceeds (env i) := by
          simpa using hsucc 0 (by simp) (by omega)
        have hcounts := itemStep_counts_of_succeeds g p (env i) st hsucc0
        obtain ⟨hg, hf, _, _, _, hfilep, _⟩ := itemStep_spec g p (env i) st
        have hmemk : ps.get ⟨k', hk'⟩ ∈ ps := List.get_mem ps k' hk'
        have hne : filenameOf (ps.get ⟨k', hk'⟩) ≠ filenameOf p :=
          fun hx => (filenameOf_ne_of_id_ne (nodup_head_id_ne hnodup hmemk)) hx.symm
        have hfilek : (itemStep g p (env i) st).1.files (filenameOf (ps.get ⟨k', hk'⟩)) = none := by
          rw [hfilep _ hne]; exact hfile
        have hnodup2 : (ps.map Pet.id).Nodup := by
          rw [List.map_cons, List.nodup_cons] at hnodup
          exact hnodup.2
        have hfail2 : genFails (env (i + 1 + k')).gen := by
          have harith : i + (k' + 1) = i + 1 + k' := by omega
          rwa [harith] at hfail
        have hsucc2 : ∀ j, j < ps.length → j ≠ k' → envSucceeds (env (i + 1 + j)) := by
          intro j hj hjne
          have hx := hsucc (j + 1) (by simp; omega) (by omega)
          have harith : i + (j + 1) = i + 1 + j := by omega
          rwa [harith] at hx
        obtain ⟨r1, r2, r3⟩ :=
          ih k' (i + 1) hk' (itemStep g p (env i) st).1 hnodup2 hfilek hfail2 hsucc2
        rw [runItems]
        refine ⟨?_, ?_, ?_⟩
        · simp only []
          rw [r1, hg, hcounts]
          simp
          omega
        · simp only []
          rw [r2, hf, hcounts]
          simp
        · simp only []
          exact r3

lemma mainRun_delegate (g : Pet → String) (pets : List Pet) (env : Nat → ItemEnv)
    (fs : Fs) (dirs : List String) :
    ∃ st2 : St, st2.files = fs
      ∧ st2.generated = 0 ∧ st2.failed = 0 ∧ st2.totalCost = 0
      ∧ ((("./images" : String) ∈ dirs) → st2.events = [])
      ∧ st2.events.countP isPauseEvent = 0
      ∧ st2.events.countP isNetworkEvent = 0
      ∧ (mainRun g pets env fs dirs).1.generated = (runItems g env pets 0 st2).1.generated
      ∧ (mainRun g pets env fs dirs).1.failed = (runItems g env pets 0 st2).1.failed
      ∧ (mainRun g pets env fs dirs).1.totalCost = (runItems g env pets 0 st2).1.totalCost
      ∧ (mainRun g pets env fs dirs).1.files = (runItems g env pets 0 st2).1.files
      ∧ (mainRun g pets env fs dirs).1.events = (runItems g env pets 0 st2).1.events
      ∧ (mainRun g pets env fs dirs).2 = (runItems g env pets 0 st2).2 := by
  by_cases hdir : ("./images" : String) ∈ dirs
  · refine ⟨{ initialSt fs dirs with
        logs := ["Starting generation of " ++ toString pets.length ++ " pet images..."] },
      rfl, rfl, rfl, rfl, fun _ => rfl, rfl, rfl, ?_, ?_, ?_, ?_, ?_, ?_⟩
      <;> simp [mainRun, initialSt, hdir]
  · refine ⟨{ initialSt fs dirs with
        dirs := dirs ++ ["./images"],
        events := [Event.mkdirEv "./images"],
        logs := ["Starting generation of " ++ toString pets.length ++ " pet images..."] },
      rfl, rfl, rfl, rfl, fun hx => absurd hx hdir, rfl, rfl, ?_, ?_, ?_, ?_, ?_, ?_⟩
      <;> simp [mainRun, initialSt, hdir]

lemma temperament_value_ne_empty {k v : String}
    (h : jsLookup temperamentToExpression k = some v) : v ≠ "" := by
  unfold jsLookup at h
  rcases hfind : temperamentToExpression.find? (fun kv => kv.1 == k) with _ | kv
  · rw [hfind] at h; simp at h
  · rw [hfind] at h
    simp at h
    have hmem := List.mem_of_find?_eq_some hfind
    have hall : ∀ kv2 ∈ temperamentToExpression, kv2.2 ≠ "" := by decide
    rw [← h]
    exact hall kv hmem

lemma itemStep_log_independent (g g2 : Pet → String) (pet : Pet) (env : ItemEnv)
    (st : St) (L : List String) :
    ∃ L2, itemStep g2 pet env { st with logs := L }
      = ({ (itemStep g pet env st).1 with logs := L2 }, (itemStep g pet env st).2) := by
  obtain ⟨uuid, gen, dl, writeOk⟩ := env
  by_cases hex : existsFile st.files (filenameOf pet) = true
  · exact ⟨L ++ ["[SKIP] " ++ pet.id ++ " - already exists"],
      by simp [itemStep, hex]⟩
  · rcases hgen : genResult gen with e | oe
    · exact ⟨L ++ [g2 pet, "  x Failed: " ++ errMessage e],
        by simp [itemStep, hex, generateImage, hgen]⟩
    · rcases oe with _ | entry
      · exact ⟨L ++ [g2 pet,
            "  x Failed: " ++ errMessage (JsError.typeErrorUndefined "cost")],
          by simp [itemStep, hex, generateImage, hgen]⟩
      · rcases dl with status | bytes
        · exact ⟨L ++ [g2 pet,
              "  x Failed: " ++ errMessage (JsError.dlTransport status)],
            by simp [itemStep, hex, generateImage, hgen, downloadImage]⟩
        · rcases writeOk with _ | _
          · exact ⟨L ++ [g2 pet,
                "  x Failed: " ++ errMessage (JsError.storage "write failed")],
              by simp [itemStep, hex, generateImage, hgen, downloadImage]⟩
          · exact ⟨L ++ [g2 pet, "  v Saved " ++ filenameOf pet
                ++ " (cost: $" ++ toString (jsOrQ entry.cost) ++ ")"],
              by simp [itemStep, hex, generateImage, hgen, downloadImage]⟩

lemma runItems_log_independent (g g2 : Pet → String) (env : Nat → ItemEnv)
    (ps : List Pet) : ∀ (i : Nat) (st : St) (L : List String),
    ∃ L2, runItems g2 env ps i { st with logs := L }
      = ({ (runItems g env ps i st).1 with logs := L2 }, (runItems g env ps i st).2) := by
  induction ps with
  | nil => intro i st L; exact ⟨L, by simp [runItems]⟩
  | cons p ps ih =>
      intro i st L
      obtain ⟨L1, hstep⟩ := itemStep_log_independent g g2 p (env i) st L
      obtain ⟨L2, htail⟩ := ih (i + 1) (itemStep g p (env i) st).1 L1
      refine ⟨L2, ?_⟩
      simp only [runItems]
      rw [hstep]
      dsimp only
      rw [htail]

/-- Claim C1, counterexample: in a single-item run the generation call
succeeds with reported cost 5 but the download fails, so the run ends with
zero items generated, one failed, and a total cost of 5.  The item that
failed contributed its cost, contradicting the claim that the total equals
the sum over successfully generated items (an empty sum here) with failed
items contributing zero. -/
theorem c1_total_cost_counterexample :
    (mainGenerate [petX] (fun _ => envDlFail) fsEmpty ["./images"]).1.totalCost = 5
    ∧ (mainGenerate [petX] (fun _ => envDlFail) fsEmpty ["./images"]).1.generated = 0
    ∧ (mainGenerate [petX] (fun _ => envDlFail) fsEmpty ["./images"]).1.failed = 1
    ∧ (mainGenerate [petX] (fun _ => envDlFail) fsEmpty ["./images"]).2
        = [ItemResult.failedAfterCost 5] := by
  refine ⟨?_, rfl, rfl, ?_⟩
  · norm_num [mainGenerate, mainRun, initialSt, runItems, itemStep, generateImage,
      generateImageEvents, genResult, downloadImage, existsFile, filenameOf, fsEmpty,
      envDlFail, payloadCost5, entryCost5, jsOrQ, petX]
  · norm_num [mainGenerate, mainRun, initialSt, runItems, itemStep, generateImage,
      generateImageEvents, genResult, downloadImage, existsFile, filenameOf, fsEmpty,
      envDlFail, payloadCost5, entryCost5, jsOrQ, petX]

/-- Claim C1, amended: the run's accumulated total cost equals the sum of
the per-item cost contributions, where the contribution of an item is its
reported cost (zero when absent) whenever the generation call returned a
result entry — that is, for successfully generated items and for items
that failed afterwards during download or write — and zero for skipped
items and for items that failed at or before the generation response. -/
theorem c1_total_cost_amended (pets : List Pet) (env : Nat → ItemEnv)
    (fs : Fs) (dirs : List String) :
    (mainGenerate pets env fs dirs).1.totalCost
      = ((mainGenerate pets env fs dirs).2.map costContribution).sum := by
  obtain ⟨st2, _, _, _, hc0, _, _, _, _, _, hC, _, _, hR⟩ :=
    mainRun_delegate genLogPlain pets env fs dirs
  obtain ⟨_, _, _, rc, _, _, _⟩ := runItems_spec genLogPlain env pets 0 st2
  unfold mainGenerate
  rw [hC, hR, rc, hc0, zero_add]

/-- Claim C2: at the end of every run the counters partition the catalog —
the per-item outcome list has exactly one entry per catalog record,
`generated` counts exactly the outcomes that increment it (skips and full
successes), `failed` counts exactly the others, and `generated + failed`
equals the number of catalog records. -/
theorem c2_counters_partition (pets : List Pet) (env : Nat → ItemEnv)
    (fs : Fs) (dirs : List String) :
    (mainGenerate pets env fs dirs).1.generated
        + (mainGenerate pets env fs dirs).1.failed = pets.length
    ∧ (mainGenerate pets env fs dirs).2.length = pets.length
    ∧ (mainGenerate pets env fs dirs).1.generated
        = (mainGenerate pets env fs dirs).2.countP countsGenerated
    ∧ (mainGenerate pets env fs dirs).1.failed
        = (mainGenerate pets env fs dirs).2.countP (fun r => !countsGenerated r) := by
  obtain ⟨st2, _, hg0, hf0, _, _, _, _, hG, hF, _, _, _, hR⟩ :=
    mainRun_delegate genLogPlain pets env fs dirs
  obtain ⟨rlen, rg, rf, _, _, _, _⟩ := runItems_spec genLogPlain env pets 0 st2
  unfold mainGenerate
  refine ⟨?_, ?_, ?_, ?_⟩
  · rw [hG, hF, rg, rf, hg0, hf0]
    simp only [Nat.zero_add]
    have hx := (runItems genLogPlain env pets 0 st2).2.length_eq_countP_add_countP
      countsGenerated
    have hfun : (fun a => decide ¬countsGenerated a = true)
        = (fun r => !countsGenerated r) := by
      funext a; cases countsGenerated a <;> rfl
    rw [hfun] at hx
    omega
  · rw [hR]; exact rlen
  · rw [hG, rg, hg0, hR]; exact Nat.zero_add _
  · rw [hF, rf, hf0, hR]; exact Nat.zero_add _

/-- Claim C3: the prompt compiler returns exactly the fixed template around
the record's visual description, with the expression word equal to the
table's value at the record's temperament when that key is present and to
the default value otherwise; the description occurs verbatim in the
output. -/
theorem c3_buildPrompt_template (p : Pet) :
    buildPrompt p =
      "simple cartoon illustration of a " ++ p.prompt ++ ", white background, "
        ++ (jsLookup temperamentToExpression p.temperament).getD "friendly"
        ++ " expression, flat colors"
    ∧ ∃ pre post, buildPrompt p = pre ++ p.prompt ++ post := by
  have hmain : buildPrompt p =
      "simple cartoon illustration of a " ++ p.prompt ++ ", white background, "
        ++ (jsLookup temperamentToExpression p.temperament).getD "friendly"
        ++ " expression, flat colors" := by
    unfold buildPrompt
    rcases hl : jsLookup temperamentToExpression p.temperament with _ | e
    · simp [jsOrStr]
    · have hne := temperament_value_ne_empty hl
      simp [jsOrStr, hne]
  refine ⟨hmain, "simple cartoon illustration of a ",
    ", white background, "
      ++ (jsLookup temperamentToExpression p.temperament).getD "friendly"
      ++ " expression, flat colors", ?_⟩
  rw [hmain]
  simp [String.append_assoc]

/-- Claim C7: with the credential environment variable absent the process
exits with status 1 (non-zero) before any work: no directory is created,
no event (network call or write) happens, the filesystem is untouched and
no item is processed. -/
theorem c7_missing_credential_exits (pets : List Pet) (env : Nat → ItemEnv)
    (fs : Fs) (dirs : List String) :
    (program none pets env fs dirs).1 = some 1
    ∧ (1 : Nat) ≠ 0
    ∧ (program none pets env fs dirs).2.1.events = []
    ∧ (program none pets env fs dirs).2.1.files = fs
    ∧ (program none pets env fs dirs).2.1.dirs = dirs
    ∧ (program none pets env fs dirs).2.1.generated = 0
    ∧ (program none pets env fs dirs).2.1.failed = 0
    ∧ (program none pets env fs dirs).2.2 = [] := by
  exact ⟨rfl, by decide, rfl, rfl, rfl, rfl, rfl, rfl⟩

lemma mainRun_eq (g : Pet → String) (pets : List Pet) (env : Nat → ItemEnv)
    (fs : Fs) (dirs : List String) :
    mainRun g pets env fs dirs
      = ({ (runItems g env pets 0 (preLoopSt pets fs dirs)).1 with
            logs := (runItems g env pets 0 (preLoopSt pets fs dirs)).1.logs
              ++ ["--- Summary ---",
                "Generated: "
                  ++ toString (runItems g env pets 0 (preLoopSt pets fs dirs)).1.generated,
                "Failed: "
                  ++ toString (runItems g env pets 0 (preLoopSt pets fs dirs)).1.failed,
                "Total cost: $"
                  ++ toString (runItems g env pets 0 (preLoopSt pets fs dirs)).1.totalCost] },
         (runItems g env pets 0 (preLoopSt pets fs dirs)).2) := rfl

/-- Claim C4: an item whose destination file already exists when it is
reached is counted as generated and produces no event at all — no network
call and no write; consequently a run over a catalog whose assets all
already exist in the existing output directory performs zero network
calls, changes no file, and reports every item as generated via skip. -/
theorem c4_skip_and_idempotence :
    (∀ (g : Pet → String) (pet : Pet) (env : ItemEnv) (st : St),
      existsFile st.files (filenameOf pet) = true →
      itemStep g pet env st =
        ({ st with
            generated := st.generated + 1,
            logs := st.logs ++ ["[SKIP] " ++ pet.id ++ " - already exists"] },
         ItemResult.skipped))
    ∧ (∀ (pets : List Pet) (env : Nat → ItemEnv) (fs : Fs) (dirs : List String),
        (∀ p ∈ pets, existsFile fs (filenameOf p) = true) →
        ("./images" : String) ∈ dirs →
        (mainGenerate pets env fs dirs).1.events = []
        ∧ (mainGenerate pets env fs dirs).1.files = fs
        ∧ (mainGenerate pets env fs dirs).1.generated = pets.length
        ∧ (mainGenerate pets env fs dirs).1.failed = 0
        ∧ (mainGenerate pets env fs dirs).2
            = List.replicate pets.length ItemResult.skipped) := by
  constructor
  · intro g pet env st hex
    exact itemStep_skip g pet env st hex
  · intro pets env fs dirs hall hdir
    obtain ⟨st2, hfs, hg0, hf0, _, hev, _, _, hG, hF, _, hFiles, hE, hR⟩ :=
      mainRun_delegate genLogPlain pets env fs dirs
    obtain ⟨t1, t2, t3, t4, t5, t6⟩ := runItems_all_skip genLogPlain env pets 0 st2
      (by intro p hp; rw [hfs]; exact hall p hp)
    unfold mainGenerate
    refine ⟨?_, ?_, ?_, ?_, ?_⟩
    · rw [hE, t2, hev hdir]
    · rw [hFiles, t1, hfs]
    · rw [hG, t3, hg0]; exact Nat.zero_add _
    · rw [hF, t4, hf0]
    · rw [hR, t6]

/-- Witness for claim C4 at a concrete input: both records of a two-record
catalog already have their assets, so the second run produces no events,
leaves the filesystem as it was, and reports both items generated. -/
theorem c4_skip_and_idempotence_witness :
    (mainGenerate [petX, petY] envSeqAllOk fsBoth ["./images"]).1.events = []
    ∧ (mainGenerate [petX, petY] envSeqAllOk fsBoth ["./images"]).1.generated = 2
    ∧ (mainGenerate [petX, petY] envSeqAllOk fsBoth ["./images"]).2
        = [ItemResult.skipped, ItemResult.skipped] := by
  have h := c4_skip_and_idempotence.2 [petX, petY] envSeqAllOk fsBoth ["./images"]
    (by intro p hp
        fin_cases hp <;> rfl)
    (by simp)
  exact ⟨h.1, h.2.2.1, h.2.2.2.2⟩

/-- Claim C5: when the generation client fails for exactly one record
(whose asset is not already present, in a catalog with distinct record
identifiers) and every other item succeeds or is skipped, the run still
processes all records; the summary reports one failed item, all others
generated, and no asset file exists for the failed record. -/
theorem c5_failure_isolation (pets : List Pet) (env : Nat → ItemEnv) (fs : Fs)
    (dirs : List String) (k : Nat) (hk : k < pets.length)
    (hnodup : (pets.map Pet.id).Nodup)
    (hfile : fs (filenameOf (pets.get ⟨k, hk⟩)) = none)
    (hfail : genFails (env k).gen)
    (hsucc : ∀ j, j < pets.length → j ≠ k → envSucceeds (env j)) :
    (mainGenerate pets env fs dirs).1.generated = pets.length - 1
    ∧ (mainGenerate pets env fs dirs).1.failed = 1
    ∧ (mainGenerate pets env fs dirs).1.files (filenameOf (pets.get ⟨k, hk⟩)) = none
    ∧ (mainGenerate pets env fs dirs).2.length = pets.length := by
  obtain ⟨st2, hfs, hg0, hf0, _, _, _, _, hG, hF, _, hFiles, _, hR⟩ :=
    mainRun_delegate genLogPlain pets env fs dirs
  have hfail0 : genFails (env (0 + k)).gen := by rwa [Nat.zero_add]
  have hsucc0 : ∀ j, j < pets.length → j ≠ k → envSucceeds (env (0 + j)) := by
    intro j hj hne; rw [Nat.zero_add]; exact hsucc j hj hne
  have hfile2 : st2.files (filenameOf (pets.get ⟨k, hk⟩)) = none := by
    rw [hfs]; exact hfile
  obtain ⟨r1, r2, r3⟩ := runItems_one_failure genLogPlain env pets k 0 hk st2
    hnodup hfile2 hfail0 hsucc0
  obtain ⟨rlen, _, _, _, _, _, _⟩ := runItems_spec genLogPlain env pets 0 st2
  unfold mainGenerate
  refine ⟨?_, ?_, ?_, ?_⟩
  · rw [hG, r1, hg0]; exact Nat.zero_add _
  · rw [hF, r2, hf0]
  · rw [hFiles]; exact r3
  · rw [hR]; exact rlen

/-- Witness for claim C5 at a concrete input: of two records the first
fails at the generation call with HTTP 500 and the second fully succeeds;
the run reports one generated, one failed, and no file for the failed
record. -/
theorem c5_failure_isolation_witness :
    (mainGenerate [petX, petY] envSeqFailFirst fsEmpty ["./images"]).1.generated = 1
    ∧ (mainGenerate [petX, petY] envSeqFailFirst fsEmpty ["./images"]).1.failed = 1
    ∧ (mainGenerate [petX, petY] envSeqFailFirst fsEmpty
        ["./images"]).1.files "./images/x1.webp" = none := by
  have h := c5_failure_isolation [petX, petY] envSeqFailFirst fsEmpty ["./images"] 0
    (by simp)
    (by decide)
    rfl
    ⟨JsError.genTransport 500 "Internal Server Error", rfl⟩
    (by intro j hj hne
        simp only [List.length_cons, List.length_nil] at hj
        have hj1 : j = 1 := by omega
        subst hj1
        exact ⟨⟨entryY, rfl⟩, ⟨[4, 5], rfl⟩, rfl⟩)
  exact ⟨h.1, h.2.1, h.2.2.1⟩

/-- Claim C6, counterexample: a payload whose errors field is present but
holds null (a falsy value) does not make generateImage fail — the result
logic returns the data entry — contradicting the claim that a
service-level failure happens exactly when the payload contains an errors
field. -/
theorem c6_generateImage_counterexample :
    payloadNullErrors.errors = some Js.null
    ∧ genResult (GenOutcome.payload payloadNullErrors) = Except.ok (some entryX) :=
  ⟨rfl, rfl⟩

/-- Claim C6, amended: generateImage fails at the transport check exactly
when the HTTP response has a non-success status, with the status code in
the message; it fails at the service check exactly when the HTTP exchange
succeeds and the payload's errors field is present with a truthy value,
with the serialized error payload in the message; otherwise, when the
payload's data array is present and non-empty, it returns the first
entry. -/
theorem c6_generateImage_classification (out : GenOutcome) :
    (∀ status statusText, out = GenOutcome.httpError status statusText →
        genResult out = Except.error (JsError.genTransport status statusText))
    ∧ (∀ status statusText,
        genResult out = Except.error (JsError.genTransport status statusText) →
        out = GenOutcome.httpError status statusText)
    ∧ (∀ status : Nat, ∀ statusText, ∃ pre post,
        errMessage (JsError.genTransport status statusText)
          = pre ++ toString status ++ post)
    ∧ (∀ p e, out = GenOutcome.payload p → p.errors = some e → jsTruthy e = true →
        genResult out = Except.error (JsError.genService e))
    ∧ (∀ e, genResult out = Except.error (JsError.genService e) →
        ∃ p, out = GenOutcome.payload p ∧ p.errors = some e ∧ jsTruthy e = true)
    ∧ (∀ e : Js, ∃ pre post,
        errMessage (JsError.genService e) = pre ++ jsStringify e ++ post)
    ∧ (∀ p entry rest, out = GenOutcome.payload p →
        (p.errors = none ∨ ∃ e, p.errors = some e ∧ jsTruthy e = false) →
        p.data = some (entry :: rest) →
        genResult out = Except.ok (some entry)) := by
  refine ⟨?_, ?_, ?_, ?_, ?_, ?_, ?_⟩
  · intro status statusText h
    subst h; rfl
  · intro status statusText h
    cases out with
    | httpError s2 t2 =>
        simp only [genResult, Except.error.injEq] at h
        cases h
        rfl
    | payload p =>
        exfalso
        rcases he : p.errors with _ | e
        · rcases hd : p.data with _ | l
          · simp [genResult, he, hd] at h
          · simp [genResult, he, hd] at h
        · by_cases ht : jsTruthy e = true
          · simp [genResult, he, ht] at h
          · rcases hd : p.data with _ | l
            · simp [genResult, he, ht, hd] at h
            · simp [genResult, he, ht, hd] at h
  · intro status statusText
    exact ⟨"API error: ", " " ++ statusText, by simp [errMessage, String.append_assoc]⟩
  · intro p e hout he ht
    subst hout
    simp [genResult, he, ht]
  · intro e h
    cases out with
    | httpError s2 t2 => exfalso; simp [genResult] at h
    | payload p =>
        refine ⟨p, rfl, ?_⟩
        rcases he : p.errors with _ | e2
        · exfalso
          rcases hd : p.data with _ | l
          · simp [genResult, he, hd] at h
          · simp [genResult, he, hd] at h
        · by_cases ht : jsTruthy e2 = true
          · simp only [genResult, he, ht, if_true, Except.error.injEq,
              JsError.genService.injEq] at h
            cases h
            exact ⟨rfl, ht⟩
          · exfalso
            rcases hd : p.data with _ | l
            · simp [genResult, he, ht, hd] at h
            · simp [genResult, he, ht, hd] at h
  · intro e
    exact ⟨"API error: ", "", by simp [errMessage]⟩
  · intro p entry rest hout herr hd
    subst hout
    rcases herr with he | ⟨e, he, ht⟩
    · simp [genResult, he, hd]
    · simp [genResult, he, ht, hd]

/-- Witness for claim C6 at concrete inputs: an HTTP 500 outcome yields
the tagged transport error, and a clean single-entry payload yields that
entry. -/
theorem c6_generateImage_classification_witness :
    genResult (GenOutcome.httpError 500 "Internal Server Error")
      = Except.error (JsError.genTransport 500 "Internal Server Error")
    ∧ genResult (GenOutcome.payload payloadX) = Except.ok (some entryX) := by
  refine ⟨?_, ?_⟩
  · exact (c6_generateImage_classification
      (GenOutcome.httpError 500 "Internal Server Error")).1 500 "Internal Server Error" rfl
  · exact (c6_generateImage_classification
      (GenOutcome.payload payloadX)).2.2.2.2.2.2 payloadX entryX [] rfl (Or.inl rfl) rfl

/-- Claim C8: the fixed inter-item pause happens exactly once per fully
successful (non-skipped, generated) item — over any run the number of
pause events equals the number of fully generated outcomes, and any single
iteration appends exactly one pause when its outcome is a full generation
and none otherwise (in particular none after a skip or a failure). -/
theorem c8_pause_once_per_generated :
    (∀ (pets : List Pet) (env : Nat → ItemEnv) (fs : Fs) (dirs : List String),
      ((mainGenerate pets env fs dirs).1.events.countP isPauseEvent)
        = (mainGenerate pets env fs dirs).2.countP isGeneratedOk)
    ∧ (∀ (g : Pet → String) (pet : Pet) (env : ItemEnv) (st : St),
        ∃ evs, (itemStep g pet env st).1.events = st.events ++ evs
          ∧ evs.countP isPauseEvent
              = cond (isGeneratedOk (itemStep g pet env st).2) 1 0) := by
  constructor
  · intro pets env fs dirs
    obtain ⟨st2, _, _, _, _, _, hp0, _, _, _, _, _, hE, hR⟩ :=
      mainRun_delegate genLogPlain pets env fs dirs
    obtain ⟨_, _, _, _, _, ⟨evs, he, hcount⟩, _⟩ := runItems_spec genLogPlain env pets 0 st2
    unfold mainGenerate
    rw [hE, hR, he, List.countP_append, hp0, hcount]
    exact Nat.zero_add _
  · intro g pet env st
    obtain ⟨_, _, _, _, ⟨evs, h1, h2, _⟩, _, _⟩ := itemStep_spec g pet env st
    exact ⟨evs, h1, h2⟩

/-- Claim C9: a successful HTTP exchange whose payload has no truthy
errors field but a missing or empty data array makes the per-item step
throw — inside generateImage at the indexing for a missing data field, or
at the first property access on the undefined result in the loop body for
an empty array — and the error is caught at the item boundary: the item
counts as failed, nothing is written, and the run still processes every
record. -/
theorem c9_payload_shape_isolated :
    (∀ p : GenPayload,
      (p.errors = none ∨ ∃ e, p.errors = some e ∧ jsTruthy e = false) →
      p.data = none →
      genResult (GenOutcome.payload p)
        = Except.error (JsError.typeErrorUndefined "0"))
    ∧ (∀ p : GenPayload,
      (p.errors = none ∨ ∃ e, p.errors = some e ∧ jsTruthy e = false) →
      p.data = some [] →
      genResult (GenOutcome.payload p) = Except.ok none)
    ∧ (∀ (g : Pet → String) (pet : Pet) (env : ItemEnv) (st : St),
        existsFile st.files (filenameOf pet) = false →
        (genResult env.gen = Except.error (JsError.typeErrorUndefined "0")
          ∨ genResult env.gen = Except.ok none) →
        (itemStep g pet env st).2 = ItemResult.failedEarly
        ∧ (itemStep g pet env st).1.failed = st.failed + 1
        ∧ (itemStep g pet env st).1.generated = st.generated
        ∧ (itemStep g pet env st).1.files = st.files)
    ∧ (∀ (pets : List Pet) (env : Nat → ItemEnv) (fs : Fs) (dirs : List String),
        (mainGenerate pets env fs dirs).2.length = pets.length
        ∧ (mainGenerate pets env fs dirs).1.generated
            + (mainGenerate pets env fs dirs).1.failed = pets.length) := by
  refine ⟨?_, ?_, ?_, ?_⟩
  · intro p herr hd
    rcases herr with he | ⟨e, he, ht⟩
    · simp [genResult, he, hd]
    · simp [genResult, he, ht, hd]
  · intro p herr hd
    rcases herr with he | ⟨e, he, ht⟩
    · simp [genResult, he, hd]
    · simp [genResult, he, ht, hd]
  · intro g pet env st hex hcase
    rcases hcase with herr | hnone
    · obtain ⟨h1, h2, h3, h4, _⟩ :=
        itemStep_genError g pet env st hex (JsError.typeErrorUndefined "0") herr
      exact ⟨h1, h4, h3, h2⟩
    · obtain ⟨h1, h2, h3, h4, _⟩ := itemStep_genUndefined g pet env st hex hnone
      exact ⟨h1, h4, h3, h2⟩
  · intro pets env fs dirs
    obtain ⟨st2, _, hg0, hf0, _, _, _, _, hG, hF, _, _, _, hR⟩ :=
      mainRun_delegate genLogPlain pets env fs dirs
    obtain ⟨rlen, rg, rf, _, _, _, _⟩ := runItems_spec genLogPlain env pets 0 st2
    unfold mainGenerate
    refine ⟨by rw [hR]; exact rlen, ?_⟩
    rw [hG, hF, rg, rf, hg0, hf0]
    simp only [Nat.zero_add]
    have hx := (runItems genLogPlain env pets 0 st2).2.length_eq_countP_add_countP
      countsGenerated
    have hfun : (fun a => decide ¬countsGenerated a = true)
        = (fun r => !countsGenerated r) := by
      funext a; cases countsGenerated a <;> rfl
    rw [hfun] at hx
    omega

/-- Witness for claim C9 at a concrete input: an empty data array makes
generateImage return the undefined result, and the item at an absent
destination is counted failed with the filesystem untouched. -/
theorem c9_payload_shape_isolated_witness :
    genResult (GenOutcome.payload payloadEmptyData) = Except.ok none
    ∧ (itemStep genLogPlain petX envEmptyData
        (initialSt fsEmpty ["./images"])).2 = ItemResult.failedEarly
    ∧ (itemStep genLogPlain petX envEmptyData
        (initialSt fsEmpty ["./images"])).1.failed = 1 := by
  have h1 := c9_payload_shape_isolated.2.1 payloadEmptyData (Or.inl rfl) rfl
  have h2 := c9_payload_shape_isolated.2.2.1 genLogPlain petX envEmptyData
    (initialSt fsEmpty ["./images"]) rfl (Or.inr rfl)
  exact ⟨h1, h2.1, h2.2.1⟩

/-- Claim C10: the plain and the documented variants embed the same
pipeline — for every catalog, environment, filesystem and directory set
the two runs produce identical files, identical semantic event traces
(hence identical prompts, identical requests, identical writes and
pauses), identical generated/failed counters and total cost, and identical
per-item outcomes; only the console log may differ. -/
theorem c10_variants_equivalent (pets : List Pet) (env : Nat → ItemEnv)
    (fs : Fs) (dirs : List String) :
    (mainGenerateDocumented pets env fs dirs).1.files
        = (mainGenerate pets env fs dirs).1.files
    ∧ (mainGenerateDocumented pets env fs dirs).1.dirs
        = (mainGenerate pets env fs dirs).1.dirs
    ∧ (mainGenerateDocumented pets env fs dirs).1.totalCost
        = (mainGenerate pets env fs dirs).1.totalCost
    ∧ (mainGenerateDocumented pets env fs dirs).1.generated
        = (mainGenerate pets env fs dirs).1.generated
    ∧ (mainGenerateDocumented pets env fs dirs).1.failed
        = (mainGenerate pets env fs dirs).1.failed
    ∧ (mainGenerateDocumented pets env fs dirs).1.events
        = (mainGenerate pets env fs dirs).1.events
    ∧ (mainGenerateDocumented pets env fs dirs).2
        = (mainGenerate pets env fs dirs).2 := by
  obtain ⟨L2, h0⟩ := runItems_log_independent genLogPlain genLogDocumented env pets 0
    (preLoopSt pets fs dirs) (preLoopSt pets fs dirs).logs
  have h : runItems genLogDocumented env pets 0 (preLoopSt pets fs dirs)
      = ({ (runItems genLogPlain env pets 0 (preLoopSt pets fs dirs)).1 with logs := L2 },
         (runItems genLogPlain env pets 0 (preLoopSt pets fs dirs)).2) := h0
  unfold mainGenerateDocumented mainGenerate
  rw [mainRun_eq genLogDocumented pets env fs dirs,
    mainRun_eq genLogPlain pets env fs dirs, h]
  exact ⟨rfl, rfl, rfl, rfl, rfl, rfl, rfl⟩
